import Mathlib

/-!
Shallow embedding of the `argparse` Go package (src/argparse.go): the
registration table, the registration-time invariant checks, and the
post-tokenization validator pipeline run by `ParseArgs`.

Go pointers to caller variables are modelled as indices into explicit cell
stores held in the parser state: `strCells` for `*string` targets,
`strListCells` for `*[]string` targets and `cmdCells` for `*Command` targets.
A registration operation that panics in Go is modelled as returning `none`;
an ordinary `error` return is a `Failure.userErr`, and a runtime nil-pointer
dereference is a `Failure.panicked`.

The pflag tokenizer is out of scope (a black-box collaborator): all parse-time
definitions start from the state *after* `FlagSet.Parse` has succeeded, where
`args` holds the leftover positional tokens (`p.Args()`), each flag carries its
`changed` bit, and flag values live in their backing cells.
-/

namespace Argparse

/-- A pflag flag as seen by this package: name, value type (pflag
`Value.Type()`), the `Changed` bit, and the index of the backing string cell
holding `Value.String()`. -/
structure Flag where
  name : String
  typ : String
  changed : Bool
  target : Nat
deriving Repr, DecidableEq

/-- `pos` (src/argparse.go:87): one fixed positional argument slot. -/
structure Pos where
  target : Nat
  name : String
  usage : String
deriving Repr, DecidableEq

/-- `posN` (src/argparse.go:93): the variadic positional slot. `maxN = -1`
means unbounded. -/
structure PosN where
  target : Nat
  name : String
  usage : String
  minN : Int
  maxN : Int
deriving Repr, DecidableEq

/-- `allowedOption` (src/argparse.go:51). -/
structure AllowedOption where
  name : String
  target : Nat
  options : List String
deriving Repr, DecidableEq

/-- `allowedRegexp` (src/argparse.go:66): the compiled regexp is modelled as
its match function (the `regexp` library is a black box), together with the
source pattern text printed by `%q` in error messages. -/
structure AllowedRegexp where
  name : String
  target : Nat
  pattern : String
  matchString : String → Bool

/-- `commandArg` (src/argparse.go:81): the implementation is an opaque id. -/
structure CommandArg where
  name : String
  description : String
  impl : Nat
deriving Repr, DecidableEq

/-- The `ArgParser` registration table and heap (src/argparse.go:30).
`command` bundles the implementation cell and the name cell registered
together by `CommandInit` (both pointers are stored at once there). -/
structure PState where
  flags : List Flag
  args : List String
  allowedRegexps : List AllowedRegexp
  allowedOptions : List AllowedOption
  command : Option (Nat × Nat)
  commandArgs : List CommandArg
  commandOptions : Option Nat
  denyEmpty : List String
  pos : List Pos
  posN : Option PosN
  mutuallyExclusives : List (List String)
  required : List String
  parsed : Bool
  strCells : List String
  strListCells : List (List String)
  cmdCells : List Nat

/-- An outcome of one validator: an ordinary error return (`fmt.Errorf`) or a
runtime panic (nil-pointer dereference). -/
inductive Failure where
  | userErr (msg : String)
  | panicked (msg : String)
deriving Repr, DecidableEq

/-- The Go runtime's nil-dereference panic message. -/
def nilDeref : String := "invalid memory address or nil pointer dereference"

/-- `FlagSet.Lookup`: find a flag by name. -/
def lookupFlag (p : PState) (name : String) : Option Flag :=
  p.flags.find? (fun f => f.name == name)

/-- Read a string cell (`*target` in Go; targets are valid pointers, so the
default is never hit for well-formed states). -/
def strCell (p : PState) (i : Nat) : String :=
  p.strCells.getD i ""

/-- The current value of a flag, `flag.Value.String()`. -/
def flagValue (p : PState) (f : Flag) : String :=
  strCell p f.target

/-- Go `%q` applied to a string (our inputs need no control-character
escapes, so only quote and backslash are escaped). -/
def goQuote (s : String) : String :=
  "\"" ++ String.join (s.toList.map (fun c =>
    if c = '\"' then "\\\"" else if c = '\\' then "\\\\" else String.singleton c)) ++ "\""

/-- Go `%q` applied to a `[]string`. -/
def goQuoteList (l : List String) : String :=
  "[" ++ String.intercalate " " (l.map goQuote) ++ "]"

/-- `allowedOption.check` (src/argparse.go:57). -/
def allowedOptionCheck (p : PState) (a : AllowedOption) : Option Failure :=
  if !a.options.contains (strCell p a.target) then
    some (.userErr (a.name ++ ": invalid value: " ++ goQuote (strCell p a.target) ++
      " is not among options: " ++ goQuoteList a.options))
  else
    none

/-- `allowedRegexp.check` (src/argparse.go:72). -/
def allowedRegexpCheck (p : PState) (a : AllowedRegexp) : Option Failure :=
  if !a.matchString (strCell p a.target) then
    some (.userErr (a.name ++ ": invalid value: " ++ goQuote (strCell p a.target) ++
      " is not matching regexp " ++ goQuote a.pattern))
  else
    none

/-- Run a list of constraint checks, returning the first failure. -/
def firstCheckFailure {α : Type} (check : α → Option Failure) : List α → Option Failure
  | [] => none
  | a :: rest =>
    match check a with
    | some f => some f
    | none => firstCheckFailure check rest

/-- `parseAllowed` (src/argparse.go:514): the regexp constraints are scanned
first, then the option constraints. -/
def parseAllowed (p : PState) : PState × Option Failure :=
  match firstCheckFailure (allowedRegexpCheck p) p.allowedRegexps with
  | some f => (p, some f)
  | none => (p, firstCheckFailure (allowedOptionCheck p) p.allowedOptions)

/-- The command-resolution loop body of `parseCommand` (src/argparse.go:546):
every matching entry binds the implementation cell and the name cell; the
flag `found` records whether any entry matched. -/
def resolveCommandLoop (implCell nameCell : Nat) (cname : String) :
    List CommandArg → PState → Bool → PState × Bool
  | [], p, found => (p, found)
  | c :: rest, p, found =>
    if c.name == cname then
      resolveCommandLoop implCell nameCell cname rest
        { p with
          cmdCells := p.cmdCells.set implCell c.impl
          strCells := p.strCells.set nameCell cname }
        true
    else
      resolveCommandLoop implCell nameCell cname rest p found

/-- `parseCommand` (src/argparse.go:528). -/
def parseCommand (p : PState) : PState × Option Failure :=
  if p.args.length > 0 && p.command.isNone && p.pos.isEmpty && p.posN.isNone then
    (p, some (.userErr "no positional arguments expected"))
  else
    match p.command with
    | none => (p, none)
    | some (implCell, nameCell) =>
      match p.args with
      | [] => (p, some (.userErr "missing command"))
      | commandName :: rest =>
        let res := resolveCommandLoop implCell nameCell commandName p.commandArgs p false
        if !res.2 then
          (res.1, some (.userErr ("invalid command: " ++ commandName)))
        else if rest.isEmpty then
          (res.1, none)
        else
          match p.commandOptions with
          | none => (res.1, some (.userErr ("options not allowed for command: " ++ commandName)))
          | some optCell =>
            ({ res.1 with strListCells := res.1.strListCells.set optCell rest }, none)

/-- The fixed-positional write loop of `parseNargs` (src/argparse.go:602):
`*p.pos[i].target = nargs[i]` for each fixed slot. -/
def writePosTargets (ps : List Pos) (vs : List String) (cells : List String) : List String :=
  (List.zip ps vs).foldl (fun acc pv => acc.set pv.1.target pv.2) cells

/-- The variadic tail of `parseNargs` (src/argparse.go:608), applied to the
leftover tokens after the fixed positionals were consumed. -/
def parseNargsPosN (p : PState) (nargs : List String) : PState × Option Failure :=
  match p.posN with
  | none =>
    if nargs.length > 0 then
      (p, some (.userErr "unexpected number of positional arguments"))
    else
      (p, none)
  | some pn =>
    if (nargs.length : Int) < pn.minN then
      if nargs.length == 0 then
        if pn.maxN == -1 then
          (p, some (.userErr ("no " ++ goQuote pn.name ++
            " positional argument(s) provided, see --help")))
        else
          (p, some (.userErr ("no " ++ goQuote pn.name ++
            " positional argument(s) provided, expected " ++ toString pn.minN ++
            ", see --help")))
      else
        (p, some (.userErr ("got " ++ toString nargs.length ++ " " ++ goQuote pn.name ++
          " positional argument(s), expected " ++ toString pn.minN ++
          " at least, see --help")))
    else if pn.maxN != -1 && (nargs.length : Int) > pn.maxN then
      (p, some (.userErr ("got " ++ toString nargs.length ++ " " ++ goQuote pn.name ++
        " positional argument(s), expected " ++ toString pn.maxN ++
        " at most, see --help")))
    else
      ({ p with strListCells := p.strListCells.set pn.target nargs }, none)

/-- `parseNargs` (src/argparse.go:586). -/
def parseNargs (p : PState) : PState × Option Failure :=
  if p.command.isSome then
    (p, none)
  else if p.args.length > 0 && p.pos.isEmpty && p.posN.isNone then
    (p, some (.userErr "no positional arguments expected"))
  else if p.pos.length > 0 then
    if p.args.length < p.pos.length then
      (p, some (.userErr "insufficient number of positional arguments, see --help"))
    else
      parseNargsPosN
        { p with strCells := writePosTargets p.pos (p.args.take p.pos.length) p.strCells }
        (p.args.drop p.pos.length)
  else
    parseNargsPosN p p.args

/-- The collection loop of `parseRequired` (src/argparse.go:677): a nil
`Lookup` result panics at `flag.Changed`. -/
def parseRequiredLoop (p : PState) : List String → List String → List String × Option Failure
  | [], acc => (acc, none)
  | name :: rest, acc =>
    match lookupFlag p name with
    | none => (acc, some (.panicked nilDeref))
    | some flag =>
      if !flag.changed then
        parseRequiredLoop p rest (acc ++ [name])
      else
        parseRequiredLoop p rest acc

/-- `parseRequired` (src/argparse.go:675). -/
def parseRequired (p : PState) : PState × Option Failure :=
  match parseRequiredLoop p p.required [] with
  | (_, some f) => (p, some f)
  | (required, none) =>
    match required with
    | [] => (p, none)
    | [n] => (p, some (.userErr ("missing required flag: " ++ n)))
    | ns => (p, some (.userErr ("missing required flags: " ++ String.intercalate ", " ns)))

/-- The inner scan of one exclusivity group (src/argparse.go:572): `changed`
holds the first changed member seen so far (empty-string sentinel). -/
def mutexGroupLoop (p : PState) : List String → String → Option Failure
  | [], _ => none
  | name :: rest, changed =>
    match lookupFlag p name with
    | none => some (.panicked nilDeref)
    | some flag =>
      if flag.changed then
        if changed != "" then
          some (.userErr (changed ++ " and " ++ name ++ " are mutually exclusive flags"))
        else
          mutexGroupLoop p rest name
      else
        mutexGroupLoop p rest changed

/-- The outer loop of `parseMutuallyExclusive` over the declared groups. -/
def parseMutuallyExclusiveLoop (p : PState) : List (List String) → Option Failure
  | [] => none
  | g :: gs =>
    match mutexGroupLoop p g "" with
    | some f => some f
    | none => parseMutuallyExclusiveLoop p gs

/-- `parseMutuallyExclusive` (src/argparse.go:570). -/
def parseMutuallyExclusive (p : PState) : PState × Option Failure :=
  (p, parseMutuallyExclusiveLoop p p.mutuallyExclusives)

/-- Linear scan of the fixed positional slots by name (used by
`parseDenyEmpty` and the registration checks). -/
def findPos (ps : List Pos) (name : String) : Option Pos :=
  ps.find? (fun q => q.name == name)

/-- The collection loop of `parseDenyEmpty` (src/argparse.go:647): a name
that is neither a flag nor a fixed positional yields the internal
`"wtf"` error. -/
def parseDenyEmptyLoop (p : PState) : List String → List String → List String × Option Failure
  | [], acc => (acc, none)
  | name :: rest, acc =>
    match lookupFlag p name with
    | none =>
      match findPos p.pos name with
      | none => (acc, some (.userErr "wtf"))
      | some q =>
        if strCell p q.target == "" then
          parseDenyEmptyLoop p rest (acc ++ [name])
        else
          parseDenyEmptyLoop p rest acc
    | some flag =>
      if flagValue p flag == "" then
        parseDenyEmptyLoop p rest (acc ++ [name])
      else
        parseDenyEmptyLoop p rest acc

/-- `parseDenyEmpty` (src/argparse.go:645). -/
def parseDenyEmpty (p : PState) : PState × Option Failure :=
  match parseDenyEmptyLoop p p.denyEmpty [] with
  | (_, some f) => (p, some f)
  | (empty, none) =>
    match empty with
    | [] => (p, none)
    | [n] => (p, some (.userErr ("flag/argument is empty: " ++ n)))
    | ns => (p, some (.userErr ("flags/arguments are empty: " ++ String.intercalate ", " ns)))

/-- `GetBool("help")` as used by `ParseArgs` (src/argparse.go:205): a missing
flag reads as false (the error is discarded there). -/
def getHelp (p : PState) : Bool :=
  match lookupFlag p "help" with
  | some f => flagValue p f == "true"
  | none => false

/-- `requiredArgs` (src/argparse.go:691). -/
def requiredArgs (p : PState) : Bool :=
  p.command.isSome || !p.pos.isEmpty ||
    (match p.posN with
     | some pn => decide (0 < pn.minN)
     | none => false) ||
    !p.required.isEmpty

/-- Overall outcome of the post-tokenization stage of `ParseArgs`:
`exitHelp rc` models the terminal `generateHelp(rc)`/`os.Exit` branch; `ok`
and `fail` carry the final parser state. -/
inductive POutcome where
  | exitHelp (rc : Nat) (p : PState)
  | ok (p : PState)
  | fail (f : Failure) (p : PState)

/-- The body of `ParseArgs` (src/argparse.go:197) after `FlagSet.Parse`
succeeded: the two help branches, then each validator in source order, each
`if err := ...; err != nil { return err }` chain transliterated directly.
`inputEmpty` is `len(args) == 0` for the original argument list. -/
def parseArgsPost (inputEmpty : Bool) (p : PState) : POutcome :=
  if inputEmpty && requiredArgs p then
    .exitHelp 1 p
  else if getHelp p then
    .exitHelp 0 p
  else
    match parseCommand p with
    | (p1, some f) => .fail f p1
    | (p1, none) =>
      match parseNargs p1 with
      | (p2, some f) => .fail f p2
      | (p2, none) =>
        match parseRequired p2 with
        | (p3, some f) => .fail f p3
        | (p3, none) =>
          match parseMutuallyExclusive p3 with
          | (p4, some f) => .fail f p4
          | (p4, none) =>
            match parseDenyEmpty p4 with
            | (p5, some f) => .fail f p5
            | (p5, none) =>
              match parseAllowed p5 with
              | (p6, some f) => .fail f p6
              | (p6, none) => .ok p6

/-- A post-tokenization validator: consumes the state, returns the possibly
mutated state and an optional failure. -/
def Validator : Type := PState → PState × Option Failure

/-- Run validators in order, stopping at the first failure: later validators
are not applied, and the state returned is the failing validator's output. -/
def runPipeline : List Validator → PState → PState × Option Failure
  | [], p => (p, none)
  | v :: vs, p =>
    match v p with
    | (p1, some f) => (p1, some f)
    | (p1, none) => runPipeline vs p1

/-- The fixed validator order of `ParseArgs`. -/
def pipelineValidators : List Validator :=
  [parseCommand, parseNargs, parseRequired, parseMutuallyExclusive,
   parseDenyEmpty, parseAllowed]

/-! ## Registration API

Each operation returns `none` where the Go code panics, `some` of the updated
state otherwise, with the panic checks in source order. -/

/-- `sliceDuplicates` (src/argparse.go:707) reduced to the question asked of
it: does the list contain a duplicate? -/
def sliceHasDuplicates (items : List String) : Bool :=
  items.any (fun s => items.count s > 1)

/-- The empty parser before `Init`/`BoolP` run. -/
def emptyPState : PState :=
  { flags := [], args := [], allowedRegexps := [], allowedOptions := []
    command := none, commandArgs := [], commandOptions := none
    denyEmpty := [], pos := [], posN := none
    mutuallyExclusives := [], required := []
    parsed := false, strCells := [], strListCells := [], cmdCells := [] }

/-- pflag `BoolP`: registers a bool flag backed by a freshly allocated cell
holding the default (rendered as `Value.String()` renders it). -/
def boolP (p : PState) (name _shorthand : String) (value : Bool) (_usage : String) : PState :=
  { p with
    flags := p.flags ++ [⟨name, "bool", false, p.strCells.length⟩]
    strCells := p.strCells ++ [if value then "true" else "false"] }

/-- pflag `StringVarP`: registers a string flag backed by the caller's
variable (cell `target`), initialized to the default value. -/
def stringVarP (p : PState) (target : Nat) (name _shorthand value _usage : String) : PState :=
  { p with
    flags := p.flags ++ [⟨name, "string", false, target⟩]
    strCells := p.strCells.set target value }

/-- A Go `var x string` local declaration: allocates a fresh string cell. -/
def allocStrCell (p : PState) : PState :=
  { p with strCells := p.strCells ++ [""] }

/-- A Go `var xs []string` local declaration: allocates a fresh list cell. -/
def allocStrListCell (p : PState) : PState :=
  { p with strListCells := p.strListCells ++ [[]] }

/-- A Go `var c Command` local declaration: allocates a fresh command cell. -/
def allocCmdCell (p : PState) : PState :=
  { p with cmdCells := p.cmdCells ++ [0] }

/-- `NewArgParser` (src/argparse.go:102): fresh parser with the help flag. -/
def newArgParser (_name : String) : PState :=
  boolP emptyPState "help" "h" false "display this help text and exit"

/-- `Required` (src/argparse.go:231). -/
def requiredOp (p : PState) (name : String) : Option PState :=
  if name == "" then none
  else if (lookupFlag p name).isNone then none
  else if p.parsed then none
  else some { p with required := p.required ++ [name] }

/-- `MutuallyExclusive` (src/argparse.go:166). -/
def mutuallyExclusiveOp (p : PState) (names : List String) : Option PState :=
  if names.length < 2 then none
  else if sliceHasDuplicates names then none
  else if names.any (fun n => (lookupFlag p n).isNone) then none
  else if p.parsed then none
  else some { p with mutuallyExclusives := p.mutuallyExclusives ++ [names] }

/-- The shared "name is a fixed positional, else must be a string flag" check
of `StringAllowOptions`/`StringAllowRegexp`/`StringDenyEmpty`
(src/argparse.go:258): `none` when the Go code panics. -/
def stringConstraintNameOk (p : PState) (name : String) : Bool :=
  if p.pos.any (fun q => q.name == name) then
    true
  else
    match lookupFlag p name with
    | none => false
    | some flag => flag.typ == "string"

/-- `StringAllowOptions` (src/argparse.go:251). -/
def stringAllowOptionsOp (p : PState) (target : Nat) (name : String)
    (options : List String) : Option PState :=
  if name == "" then none
  else if !stringConstraintNameOk p name then none
  else if p.parsed then none
  else some { p with allowedOptions := p.allowedOptions ++ [⟨name, target, options⟩] }

/-- `StringAllowRegexp` (src/argparse.go:285): `compiled = none` models
`regexp.Compile` failing (a panic); otherwise it is the match function of the
compiled pattern. -/
def stringAllowRegexpOp (p : PState) (target : Nat) (name re : String)
    (compiled : Option (String → Bool)) : Option PState :=
  if name == "" then none
  else if !stringConstraintNameOk p name then none
  else
    match compiled with
    | none => none
    | some m =>
      if p.parsed then none
      else some { p with allowedRegexps := p.allowedRegexps ++ [⟨name, target, re, m⟩] }

/-- `StringDenyEmpty` (src/argparse.go:326). -/
def stringDenyEmptyOp (p : PState) (_target : Nat) (name : String) : Option PState :=
  if name == "" then none
  else if !stringConstraintNameOk p name then none
  else if p.parsed then none
  else some { p with denyEmpty := p.denyEmpty ++ [name] }

/-- `StringPosNVar` (src/argparse.go:362). Note: no post-parse check. -/
def stringPosNVarOp (p : PState) (target : Nat) (name usage : String)
    (minN maxN : Int) : Option PState :=
  if name == "" then none
  else if p.command.isSome then none
  else if minN < 0 then none
  else if maxN == 0 then none
  else if maxN < -1 then none
  else if maxN != -1 && minN > maxN then none
  else if p.posN.isSome then none
  else if p.pos.any (fun q => q.name == name) then none
  else some { p with posN := some ⟨target, name, usage, minN, maxN⟩ }

/-- `StringPosVar` (src/argparse.go:401). Note: no post-parse check. -/
def stringPosVarOp (p : PState) (target : Nat) (name usage : String) : Option PState :=
  if name == "" then none
  else if p.command.isSome then none
  else if (lookupFlag p name).isSome then none
  else if p.pos.any (fun q => q.name == name) then none
  else if p.pos.any (fun q => q.target == target) then none
  else if p.posN.isSome then none
  else some { p with pos := p.pos ++ [⟨target, name, usage⟩] }

/-- `CommandInit` (src/argparse.go:121). Note: no post-parse check. The
implementation cell and name cell are stored together; the options target may
be nil (`none`). -/
def commandInitOp (p : PState) (implCell nameCell : Nat) (optionsCell : Option Nat) :
    Option PState :=
  if p.command.isSome then none
  else some { p with command := some (implCell, nameCell), commandOptions := optionsCell }

/-- `Command` (src/argparse.go:136). Note: no post-parse check. -/
def commandOp (p : PState) (name description : String) (impl : Nat) : Option PState :=
  if name == "" then none
  else if p.command.isNone then none
  else if p.pos.length > 0 then none
  else if p.posN.isSome then none
  else if p.commandArgs.any (fun c => c.name == name) then none
  else some { p with commandArgs := p.commandArgs ++ [⟨name, description, impl⟩] }

/-! ## Help rendering (the variadic-positional fragment) -/

/-- The variadic-positional fragment of the usage line built by
`generateHelp` (src/argparse.go:450-466): the leading-space-separated words
appended to `posArgs` for `p.posN`. -/
def posNArgsString (pn : PosN) : String :=
  (if pn.minN == 0 && pn.maxN == -1 then " [" ++ pn.name ++ "]" else "") ++
  String.join (List.replicate pn.minN.toNat (" " ++ pn.name)) ++
  (if pn.maxN == -1 then
    ".."
   else
    String.join (List.replicate (pn.maxN - pn.minN).toNat (" [" ++ pn.name)) ++
    String.join (List.replicate (pn.maxN - pn.minN).toNat "]"))

/-- Spec-side rendering, following the spec's wording amended to the code's
output: `" [name].."` when min=0 and max unbounded; the name repeated `min`
times then `".."` when max unbounded; the name `min` times followed by a
bracket-nested optional group of depth `max-min` when max is bounded. -/
def specNestedGroup (name : String) : Nat → String
  | 0 => ""
  | k + 1 => " [" ++ name ++ specNestedGroup name k ++ "]"

/-- Spec-side repetition of `" name"`. -/
def specRepeatName (name : String) : Nat → String
  | 0 => ""
  | k + 1 => " " ++ name ++ specRepeatName name k

/-- Spec-side variadic rendering (see `specNestedGroup`). -/
def specPosNRender (name : String) (minN maxN : Int) : String :=
  if maxN = -1 then
    (if minN = 0 then " [" ++ name ++ "]" else "") ++ specRepeatName name minN.toNat ++ ".."
  else
    specRepeatName name minN.toNat ++ specNestedGroup name (maxN - minN).toNat

/-! ## Reachability through the public API -/

/-- What pflag `FlagSet.Parse` (the black-box tokenizer) may do to the state:
it sets flag values, changed bits, leftover arguments and the parsed bit, but
never adds, removes or renames flags, and never touches this package's
registration lists. -/
structure TokenizeStep (p q : PState) : Prop where
  flags_names : q.flags.map Flag.name = p.flags.map Flag.name
  required_eq : q.required = p.required
  mutuallyExclusives_eq : q.mutuallyExclusives = p.mutuallyExclusives
  denyEmpty_eq : q.denyEmpty = p.denyEmpty
  pos_eq : q.pos = p.pos

/-- Parser states reachable from `NewArgParser` through the public API:
variable declarations, flag definitions, the registration operations (when
they do not panic) and tokenization. -/
inductive Reachable : PState → Prop where
  | init (name : String) : Reachable (newArgParser name)
  | allocStr (p : PState) : Reachable p → Reachable (allocStrCell p)
  | allocStrList (p : PState) : Reachable p → Reachable (allocStrListCell p)
  | allocCmd (p : PState) : Reachable p → Reachable (allocCmdCell p)
  | stringVar (p : PState) (t : Nat) (n sh v u : String) :
      Reachable p → Reachable (stringVarP p t n sh v u)
  | boolVar (p : PState) (n sh : String) (v : Bool) (u : String) :
      Reachable p → Reachable (boolP p n sh v u)
  | required (p q : PState) (n : String) :
      Reachable p → requiredOp p n = some q → Reachable q
  | mutex (p q : PState) (ns : List String) :
      Reachable p → mutuallyExclusiveOp p ns = some q → Reachable q
  | allowOptions (p q : PState) (t : Nat) (n : String) (os : List String) :
      Reachable p → stringAllowOptionsOp p t n os = some q → Reachable q
  | allowRegexp (p q : PState) (t : Nat) (n re : String) (c : Option (String → Bool)) :
      Reachable p → stringAllowRegexpOp p t n re c = some q → Reachable q
  | denyEmptyMark (p q : PState) (t : Nat) (n : String) :
      Reachable p → stringDenyEmptyOp p t n = some q → Reachable q
  | posVar (p q : PState) (t : Nat) (n u : String) :
      Reachable p → stringPosVarOp p t n u = some q → Reachable q
  | posNVar (p q : PState) (t : Nat) (n u : String) (mn mx : Int) :
      Reachable p → stringPosNVarOp p t n u mn mx = some q → Reachable q
  | cmdInit (p q : PState) (ic nc : Nat) (oc : Option Nat) :
      Reachable p → commandInitOp p ic nc oc = some q → Reachable q
  | cmd (p q : PState) (n d : String) (impl : Nat) :
      Reachable p → commandOp p n d impl = some q → Reachable q
  | tokenized (p q : PState) : Reachable p → TokenizeStep p q → Reachable q

/-- The structural invariant maintained by the registration API: every name
recorded for the required check or an exclusivity group resolves to a flag,
and every non-empty-marked name resolves to a flag or a fixed positional. -/
def NamesResolvable (p : PState) : Prop :=
  (∀ n ∈ p.required, (lookupFlag p n).isSome = true) ∧
  (∀ g ∈ p.mutuallyExclusives, ∀ n ∈ g, (lookupFlag p n).isSome = true) ∧
  (∀ n ∈ p.denyEmpty, (lookupFlag p n).isSome = true ∨ (findPos p.pos n).isSome = true)

/-! ## Concrete states, mirroring the repository's own tests -/

/-- Two changed string flags in one exclusivity group
(`TestMutuallyExclusiveFail`). -/
def sMutex : PState :=
  { emptyPState with
    flags := [⟨"help", "bool", false, 0⟩, ⟨"a-test", "string", true, 1⟩,
              ⟨"b-test", "string", true, 2⟩]
    strCells := ["false", "test", "test"]
    mutuallyExclusives := [["a-test", "b-test"]] }

/-- A string flag holding `"test4"` under an option constraint
(`TestStringAllowOptionsFail`). -/
def sOpts : PState :=
  { emptyPState with
    flags := [⟨"help", "bool", false, 0⟩, ⟨"a-test", "string", true, 1⟩]
    strCells := ["false", "test4"]
    allowedOptions := [⟨"a-test", 1, ["test1", "test2", "test3"]⟩] }

/-- The flag value `"b"` violating both an option constraint and the
pattern constraint `"^a"` at once. -/
def sBoth : PState :=
  { emptyPState with
    flags := [⟨"help", "bool", false, 0⟩, ⟨"a-test", "string", true, 1⟩]
    strCells := ["false", "b"]
    allowedOptions := [⟨"a-test", 1, ["test1", "test2", "test3"]⟩]
    allowedRegexps := [⟨"a-test", 1, "^a", fun s => s.data.head? == some 'a'⟩] }

/-- Three non-empty-marked fixed positionals parsed from `["", "y", ""]`
(`TestStringDenyEmpty_Fail_PosVar`, after `parseNargs` filled the cells). -/
def sDeny : PState :=
  { emptyPState with
    flags := [⟨"help", "bool", false, 0⟩]
    strCells := ["false", "", "y", ""]
    pos := [⟨1, "a-test", "ua"⟩, ⟨2, "b-test", "ub"⟩, ⟨3, "c-test", "uc"⟩]
    denyEmpty := ["a-test", "b-test", "c-test"] }

/-- One fixed positional plus a variadic `(1, -1)` slot with a single
leftover token (`TestStringPosNVar_Fail_TooFew`). -/
def sNargs : PState :=
  { emptyPState with
    flags := [⟨"help", "bool", false, 0⟩]
    strCells := ["false", ""]
    strListCells := [[]]
    args := ["x"]
    pos := [⟨1, "a", "ua"⟩]
    posN := some ⟨0, "b", "ub", 1, -1⟩ }

/-- A parser with one registered command `sub` and no options target,
invoked with a trailing token after the command name. -/
def sCmd : PState :=
  { emptyPState with
    flags := [⟨"help", "bool", false, 0⟩]
    strCells := ["false", ""]
    strListCells := [[]]
    cmdCells := [0]
    args := ["sub", "x"]
    command := some (0, 1)
    commandOptions := none
    commandArgs := [⟨"sub", "d", 7⟩] }

/-- Two fixed positionals then a variadic `(1, 2)` slot, with four leftover
tokens: the fixed slots are covered but the variadic maximum is exceeded. -/
def sOverMax : PState :=
  { emptyPState with
    flags := [⟨"help", "bool", false, 0⟩]
    strCells := ["false", "", ""]
    strListCells := [[]]
    args := ["t1", "t2", "t3", "t4", "t5"]
    pos := [⟨1, "a", "ua"⟩, ⟨2, "b", "ub"⟩]
    posN := some ⟨0, "c", "uc", 1, 2⟩ }

/-- A parser that has already parsed (`Parsed()` is true). -/
def sParsed : PState :=
  { emptyPState with
    flags := [⟨"help", "bool", false, 0⟩, ⟨"a-test", "string", true, 1⟩]
    strCells := ["false", "x", ""]
    parsed := true }

/-! ## Spec-side characterizations used by the theorems -/

/-- The `Changed` bit of the named flag (false when undefined — only used
under resolvability hypotheses). -/
def flagChanged (p : PState) (n : String) : Bool :=
  match lookupFlag p n with
  | some f => f.changed
  | none => false

/-- The members of a group whose flags are changed, in declaration order. -/
def changedMembers (p : PState) (g : List String) : List String :=
  g.filter (fun n => flagChanged p n)

/-- The first conflicting pair: for the first group (in declaration order)
holding at least two changed members, its first two changed members. -/
def firstConflict (p : PState) : List (List String) → Option (String × String)
  | [] => none
  | g :: gs =>
    match changedMembers p g with
    | m1 :: m2 :: _ => some (m1, m2)
    | _ => firstConflict p gs

/-- A lone variadic `(1, 2)` slot with exactly one leftover token. -/
def sVar : PState :=
  { emptyPState with
    flags := [⟨"help", "bool", false, 0⟩]
    strCells := ["false"]
    strListCells := [[]]
    args := ["x"]
    posN := some ⟨0, "v", "uv", 1, 2⟩ }

/-! ## Sanity checks against the repository's test expectations -/

example : posNArgsString ⟨0, "b-test", "u", 0, -1⟩ = " [b-test].." := by rfl
example : posNArgsString ⟨0, "b-test", "u", 0, 3⟩ = " [b-test [b-test [b-test]]]" := by rfl
example : posNArgsString ⟨0, "b-test", "u", 1, 3⟩ = " b-test [b-test [b-test]]" := by rfl
example : posNArgsString ⟨0, "b-test", "u", 3, -1⟩ = " b-test b-test b-test.." := by rfl

example : (parseMutuallyExclusive sMutex).2 =
    some (.userErr "a-test and b-test are mutually exclusive flags") := by rfl

example : (parseAllowed sOpts).2 =
    some (.userErr
      "a-test: invalid value: \"test4\" is not among options: [\"test1\" \"test2\" \"test3\"]") := by
  rfl

example : (parseDenyEmpty sDeny).2 =
    some (.userErr "flags/arguments are empty: a-test, c-test") := by rfl

example : (parseNargs sNargs).2 =
    some (.userErr "no \"b\" positional argument(s) provided, see --help") := by rfl

example : (parseCommand sCmd).2 =
    some (.userErr "options not allowed for command: sub") := by rfl
example : (parseCommand { sCmd with args := ["sub"] }).2 = none := by rfl
example : (parseCommand { sCmd with args := ["sub"] }).1.cmdCells = [7] := by rfl
example : (parseCommand { sCmd with args := ["nope"] }).2 =
    some (.userErr "invalid command: nope") := by rfl

/-! ## C1: fixed validator order with short-circuiting -/

/-- **C1.** `ParseArgs` runs the post-tokenization validators in exactly the
order: help interception, command resolution, positional arity, required
flags, mutual exclusivity, non-empty, option/pattern constraints — it equals
the short-circuiting pipeline over `pipelineValidators` — and `runPipeline`
returns the first failing validator's error and state immediately, applying
no later validator. -/
theorem C1_parseArgs_fixed_order_short_circuit :
    (∀ (inputEmpty : Bool) (p : PState),
      parseArgsPost inputEmpty p =
        (if inputEmpty && requiredArgs p then POutcome.exitHelp 1 p
         else if getHelp p then POutcome.exitHelp 0 p
         else
           match runPipeline pipelineValidators p with
           | (p1, some f) => POutcome.fail f p1
           | (p1, none) => POutcome.ok p1)) ∧
    (∀ (v : Validator) (vs : List Validator) (q q1 : PState) (f : Failure),
      v q = (q1, some f) → runPipeline (v :: vs) q = (q1, some f)) := by
  constructor
  · intro b p
    unfold parseArgsPost pipelineValidators
    cases hb : b && requiredArgs p
    · cases hh : getHelp p
      · simp only [Bool.false_eq_true, if_false]
        rcases h1 : parseCommand p with ⟨p1, f1⟩
        cases f1
        case mk.some => simp only [runPipeline, h1]
        case mk.none =>
        simp only [runPipeline, h1]
        rcases h2 : parseNargs p1 with ⟨p2, f2⟩
        cases f2
        case mk.some => simp only [runPipeline, h2]
        case mk.none =>
        simp only [runPipeline, h2]
        rcases h3 : parseRequired p2 with ⟨p3, f3⟩
        cases f3
        case mk.some => simp only [runPipeline, h3]
        case mk.none =>
        simp only [runPipeline, h3]
        rcases h4 : parseMutuallyExclusive p3 with ⟨p4, f4⟩
        cases f4
        case mk.some => simp only [runPipeline, h4]
        case mk.none =>
        simp only [runPipeline, h4]
        rcases h5 : parseDenyEmpty p4 with ⟨p5, f5⟩
        cases f5
        case mk.some => simp only [runPipeline, h5]
        case mk.none =>
        simp only [runPipeline, h5]
        rcases h6 : parseAllowed p5 with ⟨p6, f6⟩
        cases f6
        case mk.some => simp only [runPipeline, h6]
        case mk.none => simp only [runPipeline, h6]
      · simp [hh]
    · simp [hb]
  · intro v vs q q1 f h
    simp only [runPipeline, h]

/-- Witness for C1: on a parser expecting a command but given no tokens, the
pipeline stops at `parseCommand` with "missing command" and never reaches
`parseNargs`. -/
theorem C1_witness :
    runPipeline (parseCommand :: [parseNargs]) { sCmd with args := [] } =
      ({ sCmd with args := [] }, some (Failure.userErr "missing command")) :=
  C1_parseArgs_fixed_order_short_circuit.2 parseCommand [parseNargs]
    { sCmd with args := [] } { sCmd with args := [] }
    (Failure.userErr "missing command") (by rfl)

/-! ## C3: constraint evaluation order and the option message -/

/-- **C3 counterexample.** With both an option constraint and a pattern
constraint violated on the same value, `parseAllowed` reports the *pattern*
error: the option constraints are not evaluated before the pattern
constraints, contrary to the claim. -/
theorem C3_counterexample :
    allowedOptionCheck sBoth ⟨"a-test", 1, ["test1", "test2", "test3"]⟩ =
      some (.userErr
        "a-test: invalid value: \"b\" is not among options: [\"test1\" \"test2\" \"test3\"]") ∧
    (parseAllowed sBoth).2 =
      some (.userErr "a-test: invalid value: \"b\" is not matching regexp \"^a\"") :=
  ⟨rfl, rfl⟩

/-- **C3 amended.** In the final constraint-validation step all
PatternConstraints are evaluated *before* any OptionConstraint, in
registration order within each group, stopping at the first violation; an
option violation yields exactly the message of the spec's example, and a
value equal to one of the options passes. -/
theorem C3_patterns_before_options :
    (∀ (p : PState) (f : Failure),
      firstCheckFailure (allowedRegexpCheck p) p.allowedRegexps = some f →
      parseAllowed p = (p, some f)) ∧
    (∀ p : PState,
      firstCheckFailure (allowedRegexpCheck p) p.allowedRegexps = none →
      parseAllowed p = (p, firstCheckFailure (allowedOptionCheck p) p.allowedOptions)) ∧
    (parseAllowed sOpts).2 =
      some (.userErr
        "a-test: invalid value: \"test4\" is not among options: [\"test1\" \"test2\" \"test3\"]") ∧
    (parseAllowed { sOpts with strCells := ["false", "test2"] }).2 = none := by
  refine ⟨?_, ?_, rfl, rfl⟩
  · intro p f h
    simp only [parseAllowed, h]
  · intro p h
    simp only [parseAllowed, h]

/-- Witness for C3 amended: the pattern failure of `sBoth` is what
`parseAllowed` returns. -/
theorem C3_witness :
    parseAllowed sBoth =
      (sBoth,
       some (Failure.userErr "a-test: invalid value: \"b\" is not matching regexp \"^a\"")) :=
  C3_patterns_before_options.1 sBoth
    (Failure.userErr "a-test: invalid value: \"b\" is not matching regexp \"^a\"") (by rfl)

/-! ## C6: mutual-exclusivity validator -/

/-- Once a first changed member `c` has been seen, the group scan fails at
the next changed member, naming `c` and it. -/
theorem mutexGroupLoop_after_first (p : PState) (g : List String) (c : String) (hc : c ≠ "")
    (h : ∀ n ∈ g, (lookupFlag p n).isSome = true) :
    mutexGroupLoop p g c =
      match changedMembers p g with
      | m :: _ => some (.userErr (c ++ " and " ++ m ++ " are mutually exclusive flags"))
      | [] => none := by
  induction g with
  | nil => simp [mutexGroupLoop, changedMembers]
  | cons n rest ih =>
    obtain ⟨f, hf⟩ := Option.isSome_iff_exists.mp (h n (by simp))
    by_cases hch : f.changed = true
    · have hcm : changedMembers p (n :: rest) = n :: changedMembers p rest := by
        simp [changedMembers, List.filter, flagChanged, hf, hch]
      simp [mutexGroupLoop, hf, hch, hcm, hc]
    · have hcm : changedMembers p (n :: rest) = changedMembers p rest := by
        simp [changedMembers, List.filter, flagChanged, hf, hch]
      simp only [mutexGroupLoop, hf]
      rw [hcm] at *
      simp only [hch, Bool.false_eq_true, if_false]
      exact ih (fun m hm => h m (by simp [hm]))

/-- The scan of one group from the empty sentinel: a failure exactly when the
group holds at least two changed members, naming the first two. -/
theorem mutexGroupLoop_char (p : PState) (g : List String)
    (h : ∀ n ∈ g, (lookupFlag p n).isSome = true ∧ n ≠ "") :
    mutexGroupLoop p g "" =
      match changedMembers p g with
      | m1 :: m2 :: _ => some (.userErr (m1 ++ " and " ++ m2 ++ " are mutually exclusive flags"))
      | _ => none := by
  induction g with
  | nil => simp [mutexGroupLoop, changedMembers]
  | cons n rest ih =>
    obtain ⟨hn, hne⟩ := h n (by simp)
    obtain ⟨f, hf⟩ := Option.isSome_iff_exists.mp hn
    by_cases hch : f.changed = true
    · have hcm : changedMembers p (n :: rest) = n :: changedMembers p rest := by
        simp [changedMembers, List.filter, flagChanged, hf, hch]
      simp only [mutexGroupLoop, hf, hch, if_true, hcm]
      rw [if_neg (by simp)]
      rw [mutexGroupLoop_after_first p rest n hne (fun m hm => (h m (by simp [hm])).1)]
      cases changedMembers p rest <;> rfl
    · have hcm : changedMembers p (n :: rest) = changedMembers p rest := by
        simp [changedMembers, List.filter, flagChanged, hf, hch]
      simp only [mutexGroupLoop, hf, hch, Bool.false_eq_true, if_false, hcm]
      exact ih (fun m hm => h m (by simp [hm]))

/-- The outer loop reports the first conflicting group's first pair. -/
theorem parseMutuallyExclusiveLoop_char (p : PState) (gs : List (List String))
    (h : ∀ g ∈ gs, ∀ n ∈ g, (lookupFlag p n).isSome = true ∧ n ≠ "") :
    parseMutuallyExclusiveLoop p gs =
      (firstConflict p gs).map
        (fun c => Failure.userErr (c.1 ++ " and " ++ c.2 ++ " are mutually exclusive flags")) := by
  induction gs with
  | nil => rfl
  | cons g rest ih =>
    simp only [parseMutuallyExclusiveLoop, firstConflict]
    rw [mutexGroupLoop_char p g (h g (by simp))]
    rcases changedMembers p g with _ | ⟨m1, _ | ⟨m2, tl⟩⟩
    · exact ih (fun g' hg' => h g' (by simp [hg']))
    · exact ih (fun g' hg' => h g' (by simp [hg']))
    · rfl

/-- **C6.** The mutual-exclusivity validator scans each group's members in
declaration order and fails on the first group holding at least two changed
members, naming exactly its first two changed members; it passes iff every
group has at most one changed member (`firstConflict` is `none`). -/
theorem C6_first_conflicting_pair (p : PState)
    (h : ∀ g ∈ p.mutuallyExclusives, ∀ n ∈ g, (lookupFlag p n).isSome = true ∧ n ≠ "") :
    parseMutuallyExclusive p =
      (p, (firstConflict p p.mutuallyExclusives).map
        (fun c => Failure.userErr (c.1 ++ " and " ++ c.2 ++ " are mutually exclusive flags"))) := by
  unfold parseMutuallyExclusive
  rw [parseMutuallyExclusiveLoop_char p p.mutuallyExclusives h]

/-- Witness for C6: two changed members yield the message naming them. -/
theorem C6_witness :
    parseMutuallyExclusive sMutex =
      (sMutex, some (Failure.userErr "a-test and b-test are mutually exclusive flags")) := by
  rw [C6_first_conflicting_pair sMutex (by decide)]
  rfl

/-! ## C7: required-flag validator -/

/-- The collection loop gathers, in order, the required names whose flag is
unchanged. -/
theorem parseRequiredLoop_char (p : PState) (names acc : List String)
    (h : ∀ n ∈ names, (lookupFlag p n).isSome = true) :
    parseRequiredLoop p names acc =
      (acc ++ names.filter (fun n => !flagChanged p n), none) := by
  induction names generalizing acc with
  | nil => simp [parseRequiredLoop]
  | cons n rest ih =>
    obtain ⟨f, hf⟩ := Option.isSome_iff_exists.mp (h n (by simp))
    by_cases hch : f.changed = true
    · have : (n :: rest).filter (fun n => !flagChanged p n) =
          rest.filter (fun n => !flagChanged p n) := by
        simp [List.filter, flagChanged, hf, hch]
      rw [this]
      simp only [parseRequiredLoop, hf, hch, Bool.not_true, Bool.false_eq_true, if_false]
      exact ih acc (fun m hm => h m (by simp [hm]))
    · have : (n :: rest).filter (fun n => !flagChanged p n) =
          n :: rest.filter (fun n => !flagChanged p n) := by
        simp [List.filter, flagChanged, hf, hch]
      rw [this]
      simp only [parseRequiredLoop, hf, hch, Bool.not_false, if_true]
      rw [ih (acc ++ [n]) (fun m hm => h m (by simp [hm]))]
      simp

/-- **C7.** The required-flag validator collects every required name whose
changed bit is unset, in registration order: none collected passes, one fails
with the singular message, several fail with the names joined by ", "; and
the check reads only the changed bits, never the flag values (replacing the
whole value heap leaves the outcome unchanged). -/
theorem C7_missing_required (p : PState)
    (h : ∀ n ∈ p.required, (lookupFlag p n).isSome = true) :
    (parseRequired p =
      (p, match p.required.filter (fun n => !flagChanged p n) with
          | [] => none
          | [n] => some (Failure.userErr ("missing required flag: " ++ n))
          | ns => some (Failure.userErr ("missing required flags: " ++
              String.intercalate ", " ns)))) ∧
    (∀ cells : List String,
      (parseRequired { p with strCells := cells }).2 = (parseRequired p).2) := by
  have hloop : ∀ (q : PState), q.flags = p.flags → ∀ names acc,
      parseRequiredLoop q names acc = parseRequiredLoop p names acc := by
    intro q hq names
    induction names with
    | nil => intro acc; rfl
    | cons n rest ih =>
      intro acc
      have hl : lookupFlag q n = lookupFlag p n := by simp [lookupFlag, hq]
      simp only [parseRequiredLoop, hl]
      cases lookupFlag p n with
      | none => rfl
      | some f =>
        cases hch : f.changed <;> simp [hch, ih]
  constructor
  · unfold parseRequired
    rw [parseRequiredLoop_char p p.required [] h]
    simp only [List.nil_append]
    rcases p.required.filter (fun n => !flagChanged p n) with _ | ⟨n, _ | ⟨m, tl⟩⟩ <;> rfl
  · intro cells
    unfold parseRequired
    rw [hloop { p with strCells := cells } rfl p.required []]
    rcases parseRequiredLoop p p.required [] with ⟨acc, _ | f⟩
    · rcases acc with _ | ⟨n, _ | ⟨m, tl⟩⟩ <;> rfl
    · rfl

/-- Witness for C7: the unchanged `help` flag marked required yields the
singular message. -/
theorem C7_witness :
    parseRequired { sMutex with mutuallyExclusives := [], required := ["help"] } =
      ({ sMutex with mutuallyExclusives := [], required := ["help"] },
       some (Failure.userErr "missing required flag: help")) := by
  rw [(C7_missing_required { sMutex with mutuallyExclusives := [], required := ["help"] }
    (by decide)).1]
  rfl

/-! ## C5 and C9: variadic positional arity -/

/-- A leftover count below the minimum or above a bounded maximum makes the
variadic step fail with an ordinary error, leaving the state untouched. -/
theorem parseNargsPosN_err (p : PState) (pn : PosN) (nargs : List String)
    (hpn : p.posN = some pn)
    (h : (nargs.length : Int) < pn.minN ∨
         (pn.maxN ≠ -1 ∧ pn.maxN < (nargs.length : Int))) :
    ∃ msg, parseNargsPosN p nargs = (p, some (.userErr msg)) := by
  unfold parseNargsPosN
  simp only [hpn]
  by_cases h1 : (nargs.length : Int) < pn.minN
  · rw [if_pos h1]
    split
    · split
      · exact ⟨_, rfl⟩
      · exact ⟨_, rfl⟩
    · exact ⟨_, rfl⟩
  · rw [if_neg h1]
    split
    · exact ⟨_, rfl⟩
    · rename_i hcond
      exfalso
      simp only [bne_iff_ne, ne_eq, Bool.and_eq_true, decide_eq_true_eq, not_and] at hcond
      rcases h with h | ⟨hne, hlt⟩
      · exact h1 h
      · by_cases hm : pn.maxN = -1
        · exact hne hm
        · exact absurd hlt (by simpa using hcond hm)

/-- A leftover count within the bounds makes the variadic step succeed,
writing the tokens into the target list cell. -/
theorem parseNargsPosN_ok (p : PState) (pn : PosN) (nargs : List String)
    (hpn : p.posN = some pn)
    (hmin : pn.minN ≤ (nargs.length : Int))
    (hmax : pn.maxN = -1 ∨ (nargs.length : Int) ≤ pn.maxN) :
    parseNargsPosN p nargs =
      ({ p with strListCells := p.strListCells.set pn.target nargs }, none) := by
  unfold parseNargsPosN
  simp only [hpn]
  rw [if_neg (by omega)]
  split
  · rename_i hcond
    exfalso
    simp only [bne_iff_ne, ne_eq, Bool.and_eq_true, decide_eq_true_eq] at hcond
    rcases hmax with hm | hm
    · exact hcond.1 hm
    · omega
  · rfl

/-- With no command table, no fixed positionals and a variadic slot, the
arity validator is exactly the variadic step. -/
theorem parseNargs_no_fixed (p : PState) (pn : PosN)
    (hcmd : p.command = none) (hpos : p.pos = []) (hpn : p.posN = some pn) :
    parseNargs p = parseNargsPosN p p.args := by
  unfold parseNargs
  simp [hcmd, hpos, hpn]

/-- **C5.** For a parser with no command table, no fixed positionals and one
variadic slot `(min, max)`: `min-1` leftover tokens fail; exactly `min`
succeed and populate the target list; exactly `max` succeed when bounded;
`max+1` fail when bounded; any count at least `min` succeeds when `max = -1`;
and on success the target cell holds exactly the tokens. -/
theorem C5_variadic_bounds (p : PState) (pn : PosN)
    (hcmd : p.command = none) (hpos : p.pos = []) (hpn : p.posN = some pn) :
    (((p.args.length : Int) = pn.minN - 1) → ((parseNargs p).2).isSome = true) ∧
    (((p.args.length : Int) = pn.minN ∧ (pn.maxN = -1 ∨ pn.minN ≤ pn.maxN)) →
      parseNargs p = ({ p with strListCells := p.strListCells.set pn.target p.args }, none)) ∧
    ((pn.maxN ≠ -1 ∧ pn.minN ≤ pn.maxN ∧ (p.args.length : Int) = pn.maxN) →
      parseNargs p = ({ p with strListCells := p.strListCells.set pn.target p.args }, none)) ∧
    ((pn.maxN ≠ -1 ∧ (p.args.length : Int) = pn.maxN + 1) →
      ((parseNargs p).2).isSome = true) ∧
    ((pn.maxN = -1 ∧ pn.minN ≤ (p.args.length : Int)) →
      parseNargs p = ({ p with strListCells := p.strListCells.set pn.target p.args }, none)) ∧
    (pn.target < p.strListCells.length →
      (p.strListCells.set pn.target p.args).getD pn.target [] = p.args) := by
  have hred := parseNargs_no_fixed p pn hcmd hpos hpn
  refine ⟨?_, ?_, ?_, ?_, ?_, ?_⟩
  · intro h1
    obtain ⟨msg, hm⟩ := parseNargsPosN_err p pn p.args hpn (Or.inl (by omega))
    rw [hred, hm]
    rfl
  · rintro ⟨h1, h2⟩
    rw [hred, parseNargsPosN_ok p pn p.args hpn (by omega) (by omega)]
  · rintro ⟨h1, h2, h3⟩
    rw [hred, parseNargsPosN_ok p pn p.args hpn (by omega) (by omega)]
  · rintro ⟨h1, h2⟩
    rcases lt_or_le ((p.args.length : Int)) pn.minN with hlt | hge
    · obtain ⟨msg, hm⟩ := parseNargsPosN_err p pn p.args hpn (Or.inl hlt)
      rw [hred, hm]
      rfl
    · obtain ⟨msg, hm⟩ := parseNargsPosN_err p pn p.args hpn (Or.inr ⟨h1, by omega⟩)
      rw [hred, hm]
      rfl
  · rintro ⟨h1, h2⟩
    rw [hred, parseNargsPosN_ok p pn p.args hpn (by omega) (Or.inl h1)]
  · intro ht
    simp [List.getD_eq_getElem?_getD, List.getElem?_set_self, ht]

/-- Witness for C5: exactly `min = 1` token for a `(1, 2)` slot succeeds and
fills the target cell with it. -/
theorem C5_witness :
    parseNargs sVar = ({ sVar with strListCells := sVar.strListCells.set 0 sVar.args }, none) :=
  (C5_variadic_bounds sVar ⟨0, "v", "uv", 1, 2⟩ rfl rfl rfl).2.1 ⟨by decide, Or.inr (by decide)⟩

/-- Peeling one slot/token pair off the fixed-positional write loop. -/
theorem writePosTargets_cons (q : Pos) (ps : List Pos) (v : String) (vs : List String)
    (cells : List String) :
    writePosTargets (q :: ps) (v :: vs) cells = writePosTargets ps vs (cells.set q.target v) :=
  rfl

/-- The write loop leaves untouched every cell that is no slot's target. -/
theorem writePosTargets_getD_of_not_target (ps : List Pos) (vs : List String)
    (cells : List String) (i : Nat) (h : ∀ q ∈ ps, q.target ≠ i) :
    (writePosTargets ps vs cells).getD i "" = cells.getD i "" := by
  induction ps generalizing vs cells with
  | nil => rfl
  | cons q ps ih =>
    cases vs with
    | nil => rfl
    | cons v vs =>
      rw [writePosTargets_cons, ih vs _ (fun r hr => h r (by simp [hr]))]
      simp [List.getD_eq_getElem?_getD, List.getElem?_set_ne (h q (by simp))]

/-- The write loop preserves the heap size. -/
theorem writePosTargets_length (ps : List Pos) (vs : List String) (cells : List String) :
    (writePosTargets ps vs cells).length = cells.length := by
  induction ps generalizing vs cells with
  | nil => rfl
  | cons q ps ih =>
    cases vs with
    | nil => rfl
    | cons v vs => rw [writePosTargets_cons, ih, List.length_set]

/-- With pairwise-distinct, in-range targets, the write loop stores the i-th
token in the i-th slot's cell. -/
theorem writePosTargets_getD_target (ps : List Pos) (vs : List String) (cells : List String)
    (hnodup : (ps.map Pos.target).Nodup) (hr : ∀ q ∈ ps, q.target < cells.length) :
    ∀ i (hi : i < ps.length), i < vs.length →
      (writePosTargets ps vs cells).getD (ps.get ⟨i, hi⟩).target "" = vs.getD i "" := by
  induction ps generalizing vs cells with
  | nil =>
    intro i hi
    exact absurd hi (by simp)
  | cons q ps ih =>
    intro i hi hvi
    cases vs with
    | nil => exact absurd hvi (by simp)
    | cons v vs =>
      rw [writePosTargets_cons]
      have hn : (∀ x ∈ ps, ¬x.target = q.target) ∧ (List.map Pos.target ps).Nodup := by
        simpa using hnodup
      cases i with
      | zero =>
        show (writePosTargets ps vs (cells.set q.target v)).getD q.target "" = v
        rw [writePosTargets_getD_of_not_target ps vs _ q.target
          (fun r hrr heq => hn.1 r hrr heq)]
        simp [List.getD_eq_getElem?_getD, List.getElem?_set_self, hr q (by simp)]
      | succ j =>
        have hj : j < ps.length := by simpa using hi
        have hjv : j < vs.length := by simpa using hvi
        have := ih vs (cells.set q.target v) hn.2
          (fun r hrr => by simpa [List.length_set] using hr r (by simp [hrr])) j hj hjv
        simpa using this

/-- **C9.** Parsing is not atomic: with fixed positionals followed by a
variadic slot, when the leftover tokens cover the fixed slots but violate the
variadic minimum or bounded maximum, `parseNargs` returns an error while the
fixed target cells have already been overwritten with the consumed tokens. -/
theorem C9_fixed_written_before_variadic_failure (p : PState) (pn : PosN)
    (hcmd : p.command = none) (hpn : p.posN = some pn) (hposne : p.pos ≠ [])
    (hlen : p.pos.length ≤ p.args.length)
    (hviol : ((p.args.length : Int) - p.pos.length < pn.minN) ∨
             (pn.maxN ≠ -1 ∧ pn.maxN < (p.args.length : Int) - p.pos.length))
    (hnodup : (p.pos.map Pos.target).Nodup)
    (hrange : ∀ q ∈ p.pos, q.target < p.strCells.length) :
    (∃ msg, parseNargs p =
      ({ p with strCells := writePosTargets p.pos (p.args.take p.pos.length) p.strCells },
       some (Failure.userErr msg))) ∧
    (∀ i (hi : i < p.pos.length),
      ((parseNargs p).1).strCells.getD (p.pos.get ⟨i, hi⟩).target "" = p.args.getD i "") := by
  have hrest : ((p.args.drop p.pos.length).length : Int) =
      (p.args.length : Int) - p.pos.length := by
    rw [List.length_drop]
    omega
  have hred : parseNargs p =
      parseNargsPosN
        { p with strCells := writePosTargets p.pos (p.args.take p.pos.length) p.strCells }
        (p.args.drop p.pos.length) := by
    unfold parseNargs
    rw [if_neg (by simp [hcmd])]
    rw [if_neg (by simp [hposne])]
    rw [if_pos (by simpa using List.length_pos.mpr hposne)]
    rw [if_neg (by omega)]
  obtain ⟨msg, hm⟩ := parseNargsPosN_err
    { p with strCells := writePosTargets p.pos (p.args.take p.pos.length) p.strCells }
    pn (p.args.drop p.pos.length) hpn (by rw [hrest]; exact hviol)
  constructor
  · exact ⟨msg, by rw [hred, hm]⟩
  · intro i hi
    rw [hred, hm]
    have := writePosTargets_getD_target p.pos (p.args.take p.pos.length) p.strCells
      hnodup hrange i hi (by simp [List.length_take]; omega)
    rw [this]
    simp [List.getD_eq_getElem?_getD, List.getElem?_take, hi]

/-! ## C2: post-parse registration -/

/-- **C2 counterexample.** `StringPosVar` invoked after parsing does *not*
panic: it succeeds on an already-parsed parser (no `Parsed()` check exists in
it). -/
theorem C2_counterexample :
    sParsed.parsed = true ∧ (stringPosVarOp sParsed 2 "arg" "usage").isSome = true :=
  ⟨rfl, rfl⟩

/-- **C2 amended.** The five constraint-registration operations
(`Required`, `MutuallyExclusive`, `StringAllowOptions`, `StringAllowRegexp`,
`StringDenyEmpty`) always fail fatally when invoked after parsing; the
positional and command registration operations (`StringPosVar`,
`StringPosNVar`, `CommandInit`, `Command`) perform no post-parse check and
can succeed on an already-parsed parser. -/
theorem C2_post_parse_panics :
    (∀ (p : PState) (n : String), p.parsed = true → requiredOp p n = none) ∧
    (∀ (p : PState) (ns : List String), p.parsed = true → mutuallyExclusiveOp p ns = none) ∧
    (∀ (p : PState) (t : Nat) (n : String) (os : List String), p.parsed = true →
      stringAllowOptionsOp p t n os = none) ∧
    (∀ (p : PState) (t : Nat) (n re : String) (c : Option (String → Bool)), p.parsed = true →
      stringAllowRegexpOp p t n re c = none) ∧
    (∀ (p : PState) (t : Nat) (n : String), p.parsed = true →
      stringDenyEmptyOp p t n = none) ∧
    ((stringPosVarOp sParsed 2 "arg" "usage").isSome = true) ∧
    ((stringPosNVarOp sParsed 0 "args" "usage" 0 (-1)).isSome = true) ∧
    (commandInitOp sParsed 0 2 none = some { sParsed with command := some (0, 2) }) ∧
    ((commandOp { sParsed with command := some (0, 2) } "sub" "d" 1).isSome = true) := by
  refine ⟨?_, ?_, ?_, ?_, ?_, rfl, rfl, rfl, rfl⟩
  · intro p n h
    simp [requiredOp, h]
  · intro p ns h
    simp [mutuallyExclusiveOp, h]
  · intro p t n os h
    simp [stringAllowOptionsOp, h]
  · intro p t n re c h
    cases c <;> simp [stringAllowRegexpOp, h]
  · intro p t n h
    simp [stringDenyEmptyOp, h]

/-- Witness for C2 amended: `Required` on an already-parsed parser panics. -/
theorem C2_witness : requiredOp sParsed "a-test" = none :=
  C2_post_parse_panics.1 sParsed "a-test" rfl

/-- Witness for C9: five tokens against two fixed slots and a `(1, 2)`
variadic slot fail on the maximum, yet the fixed cells hold `t1`, `t2`. -/
theorem C9_witness :
    (∃ msg, parseNargs sOverMax =
      ({ sOverMax with
         strCells := writePosTargets sOverMax.pos (sOverMax.args.take sOverMax.pos.length)
           sOverMax.strCells },
       some (Failure.userErr msg))) ∧
    (∀ i (hi : i < sOverMax.pos.length),
      ((parseNargs sOverMax).1).strCells.getD (sOverMax.pos.get ⟨i, hi⟩).target "" =
        sOverMax.args.getD i "") :=
  C9_fixed_written_before_variadic_failure sOverMax ⟨0, "c", "uc", 1, 2⟩
    rfl rfl (by decide) (by decide) (Or.inr (by decide)) (by decide) (by decide)

/-! ## C4: command resolution -/

/-- The resolution loop leaves the state alone when no entry matches. -/
theorem resolveCommandLoop_no_match (ic nc : Nat) (n : String) (l : List CommandArg)
    (p : PState) (found : Bool) (h : ∀ c ∈ l, c.name ≠ n) :
    resolveCommandLoop ic nc n l p found = (p, found) := by
  induction l generalizing p found with
  | nil => rfl
  | cons c rest ih =>
    simp only [resolveCommandLoop]
    rw [if_neg (by simp [h c (by simp)])]
    exact ih p found (fun d hd => h d (by simp [hd]))

/-- With pairwise-distinct command names, the loop binds the matching entry's
implementation and the command name, and reports the match. -/
theorem resolveCommandLoop_match (ic nc : Nat) (n : String) (l : List CommandArg)
    (p : PState) (found : Bool) (hnodup : (l.map CommandArg.name).Nodup)
    (c : CommandArg) (hc : c ∈ l) (hcn : c.name = n) :
    resolveCommandLoop ic nc n l p found =
      ({ p with cmdCells := p.cmdCells.set ic c.impl,
                strCells := p.strCells.set nc n }, true) := by
  induction l generalizing p found with
  | nil => exact absurd hc (by simp)
  | cons d rest ih =>
    have hn : (∀ x ∈ rest, ¬x.name = d.name) ∧ (rest.map CommandArg.name).Nodup := by
      simpa using hnodup
    rcases List.mem_cons.mp hc with hcd | hcr
    · subst hcd
      simp only [resolveCommandLoop]
      rw [if_pos (by simp [hcn])]
      exact resolveCommandLoop_no_match ic nc n rest _ true
        (fun x hx => fun he => hn.1 x hx (he.trans hcn.symm))
    · by_cases hd : d.name = n
      · exact absurd (hcn.trans hd.symm) (hn.1 c hcr)
      · simp only [resolveCommandLoop]
        rw [if_neg (by simp [hd])]
        exact ih p found hn.2 hcr

/-- **C4 counterexample.** The code's message has a colon —
`"options not allowed for command: <name>"` — not the claimed
`"options not allowed for command <name>"`. -/
theorem C4_counterexample :
    (parseCommand sCmd).2 = some (.userErr "options not allowed for command: sub") ∧
    "options not allowed for command: sub" ≠ "options not allowed for command sub" :=
  ⟨rfl, by decide⟩

/-- **C4 amended.** With a command table registered: empty leftovers fail
with "missing command"; an unmatched first token fails with
"invalid command: <name>"; on a match the implementation and name cells are
bound and the token consumed; trailing tokens without a registered options
target fail with "options not allowed for command: <name>" (with a colon),
and with one they are bound; and the positional-arity validator is skipped
entirely when a command table is present. -/
theorem C4_command_resolution (p : PState) (ic nc : Nat)
    (hcmd : p.command = some (ic, nc))
    (hnodup : (p.commandArgs.map CommandArg.name).Nodup) :
    (p.args = [] → parseCommand p = (p, some (.userErr "missing command"))) ∧
    (∀ n rest, p.args = n :: rest → (∀ c ∈ p.commandArgs, c.name ≠ n) →
      parseCommand p = (p, some (.userErr ("invalid command: " ++ n)))) ∧
    (∀ c ∈ p.commandArgs, p.args = [c.name] →
      parseCommand p =
        ({ p with cmdCells := p.cmdCells.set ic c.impl,
                  strCells := p.strCells.set nc c.name }, none)) ∧
    (∀ c ∈ p.commandArgs, ∀ rest, rest ≠ [] → p.args = c.name :: rest →
      p.commandOptions = none →
      parseCommand p =
        ({ p with cmdCells := p.cmdCells.set ic c.impl,
                  strCells := p.strCells.set nc c.name },
         some (.userErr ("options not allowed for command: " ++ c.name)))) ∧
    (∀ c ∈ p.commandArgs, ∀ rest oc, rest ≠ [] → p.args = c.name :: rest →
      p.commandOptions = some oc →
      parseCommand p =
        ({ p with cmdCells := p.cmdCells.set ic c.impl,
                  strCells := p.strCells.set nc c.name,
                  strListCells := p.strListCells.set oc rest }, none)) ∧
    (∀ q : PState, q.command.isSome = true → parseNargs q = (q, none)) := by
  refine ⟨?_, ?_, ?_, ?_, ?_, ?_⟩
  · intro hargs
    unfold parseCommand
    rw [if_neg (by simp [hcmd])]
    simp only [hcmd, hargs]
  · intro n rest hargs hno
    unfold parseCommand
    rw [if_neg (by simp [hcmd])]
    simp only [hcmd, hargs]
    rw [resolveCommandLoop_no_match ic nc n p.commandArgs p false hno]
    simp
  · intro c hc hargs
    unfold parseCommand
    rw [if_neg (by simp [hcmd])]
    simp only [hcmd, hargs]
    rw [resolveCommandLoop_match ic nc c.name p.commandArgs p false hnodup c hc rfl]
    simp
    exact ⟨hargs, hcmd⟩
  · intro c hc rest hrest hargs hopt
    unfold parseCommand
    rw [if_neg (by simp [hcmd])]
    simp only [hcmd, hargs, hopt]
    rw [resolveCommandLoop_match ic nc c.name p.commandArgs p false hnodup c hc rfl]
    simp [hrest]
    exact ⟨hargs, hcmd, hopt⟩
  · intro c hc rest oc hrest hargs hopt
    unfold parseCommand
    rw [if_neg (by simp [hcmd])]
    simp only [hcmd, hargs, hopt]
    rw [resolveCommandLoop_match ic nc c.name p.commandArgs p false hnodup c hc rfl]
    simp [hrest]
    exact ⟨hargs, hcmd, hopt⟩
  · intro q hq
    unfold parseNargs
    rw [if_pos hq]

/-- Witness for C4 amended: `sCmd` binds `sub` then fails on the trailing
token with the colon message. -/
theorem C4_witness :
    parseCommand sCmd =
      ({ sCmd with cmdCells := sCmd.cmdCells.set 0 7, strCells := sCmd.strCells.set 1 "sub" },
       some (Failure.userErr "options not allowed for command: sub")) :=
  (C4_command_resolution sCmd 0 1 rfl (by decide)).2.2.2.1
    ⟨"sub", "d", 7⟩ (by decide) ["x"] (by decide) rfl rfl

/-! ## C8: usage rendering of the variadic arity -/

/-- **C8 counterexample.** For `min = 0`, `max = -1` the code renders
`" [name].."` — `".."` is appended after the closing bracket, not nothing. -/
theorem C8_counterexample :
    posNArgsString ⟨0, "name", "", 0, -1⟩ = " [name].." ∧
    (" [name].." : String) ≠ " [name]" :=
  ⟨rfl, by decide⟩

/-- Appending one string to a joined replication. -/
theorem join_replicate_succ (k : Nat) (a : String) :
    String.join (List.replicate (k + 1) a) = String.join (List.replicate k a) ++ a := by
  rw [List.replicate_succ']
  apply String.ext
  simp

/-- The repeated-name loop of `generateHelp` equals the spec-side
repetition. -/
theorem join_replicate_name (name : String) (k : Nat) :
    String.join (List.replicate k (" " ++ name)) = specRepeatName name k := by
  induction k with
  | zero => rfl
  | succ j ih =>
    rw [List.replicate_succ]
    apply String.ext
    have := congrArg String.data ih
    simp only [String.data_join] at this
    simp only [String.data_join, List.map_cons, List.flatten_cons, specRepeatName,
      String.data_append, this]

/-- The two bracket loops of `generateHelp` build the spec-side nested
optional group. -/
theorem join_replicate_brackets (name : String) (k : Nat) :
    String.join (List.replicate k (" [" ++ name)) ++ String.join (List.replicate k "]") =
      specNestedGroup name k := by
  induction k with
  | zero => rfl
  | succ j ih =>
    rw [List.replicate_succ, join_replicate_succ]
    apply String.ext
    have := congrArg String.data ih
    simp only [String.data_append, String.data_join] at this
    simp only [String.data_append, String.data_join, List.map_cons, List.flatten_cons,
      specNestedGroup]
    rw [List.append_assoc, List.append_assoc, ← List.append_assoc
      (List.map String.data (List.replicate j (" [" ++ name))).flatten, this]
    simp

/-- **C8 amended.** The variadic fragment is `" [name].."` when `min = 0`
and `max = -1`; the name repeated `min` times then `".."` when `max = -1`;
and the name `min` times followed by a bracket-nested optional group of depth
`max - min` when `max` is bounded. -/
theorem C8_variadic_rendering (pn : PosN) :
    posNArgsString pn = specPosNRender pn.name pn.minN pn.maxN := by
  unfold posNArgsString specPosNRender
  by_cases hm : pn.maxN = -1
  · have c3 : (pn.maxN == -1) = true := by simp [hm]
    by_cases h0 : pn.minN = 0
    · have c1 : (pn.minN == 0 && pn.maxN == -1) = true := by simp [hm, h0]
      rw [if_pos c1, if_pos c3, if_pos hm, if_pos h0, join_replicate_name]
    · have c1 : ¬((pn.minN == 0 && pn.maxN == -1) = true) := by simp [h0]
      rw [if_neg c1, if_pos c3, if_pos hm, if_neg h0, join_replicate_name]
  · have c3 : ¬((pn.maxN == -1) = true) := by simp [hm]
    have c1 : ¬((pn.minN == 0 && pn.maxN == -1) = true) := by simp [hm]
    rw [if_neg c1, if_neg c3, if_neg hm, join_replicate_name,
      ← join_replicate_brackets pn.name (pn.maxN - pn.minN).toNat]
    apply String.ext
    simp


/-! ## C10: no nil dereference, the internal error branch unreachable -/

/-- A name resolves to a flag iff some flag carries it. -/
theorem lookupFlag_isSome_iff (p : PState) (n : String) :
    (lookupFlag p n).isSome = true ↔ ∃ f ∈ p.flags, f.name = n := by
  rw [lookupFlag, List.find?_isSome]
  simp

/-- A name resolves to a fixed positional iff some slot carries it. -/
theorem findPos_isSome_iff (ps : List Pos) (n : String) :
    (findPos ps n).isSome = true ↔ ∃ q ∈ ps, q.name = n := by
  rw [findPos, List.find?_isSome]
  simp

/-- Convert the negated `isNone` of the registration checks to `isSome`. -/
theorem isSome_of_not_isNone {α : Type} {x : Option α} (h : ¬(x.isNone = true)) :
    x.isSome = true := by
  cases x
  · simp at h
  · rfl

/-- The shared string-constraint name check only accepts names that resolve
to a flag or a fixed positional. -/
theorem stringConstraintNameOk_resolvable (p : PState) (n : String)
    (h : stringConstraintNameOk p n = true) :
    (lookupFlag p n).isSome = true ∨ (findPos p.pos n).isSome = true := by
  unfold stringConstraintNameOk at h
  split at h
  · rename_i hany
    right
    rw [findPos_isSome_iff]
    simpa using hany
  · left
    cases hl : lookupFlag p n
    · rw [hl] at h
      simp at h
    · rfl

/-- Every state reachable through the public API satisfies the resolvability
invariant: required and exclusivity names are flags, non-empty-marked names
are flags or fixed positionals. -/
theorem reachable_namesResolvable (p : PState) (h : Reachable p) : NamesResolvable p := by
  induction h with
  | init name =>
    refine ⟨?_, ?_, ?_⟩ <;> intro n hn <;> simp [newArgParser, boolP, emptyPState] at hn
  | allocStr p _ ih => exact ih
  | allocStrList p _ ih => exact ih
  | allocCmd p _ ih => exact ih
  | stringVar p t n sh v u _ ih =>
    obtain ⟨h1, h2, h3⟩ := ih
    refine ⟨?_, ?_, ?_⟩
    · intro m hm
      rw [lookupFlag_isSome_iff]
      obtain ⟨f, hf, he⟩ := (lookupFlag_isSome_iff _ m).mp (h1 m hm)
      exact ⟨f, by simp [stringVarP, hf], he⟩
    · intro g hg m hm
      rw [lookupFlag_isSome_iff]
      obtain ⟨f, hf, he⟩ := (lookupFlag_isSome_iff _ m).mp (h2 g hg m hm)
      exact ⟨f, by simp [stringVarP, hf], he⟩
    · intro m hm
      rcases h3 m hm with hfl | hps
      · left
        rw [lookupFlag_isSome_iff]
        obtain ⟨f, hf, he⟩ := (lookupFlag_isSome_iff _ m).mp hfl
        exact ⟨f, by simp [stringVarP, hf], he⟩
      · right
        exact hps
  | boolVar p n sh v u _ ih =>
    obtain ⟨h1, h2, h3⟩ := ih
    refine ⟨?_, ?_, ?_⟩
    · intro m hm
      rw [lookupFlag_isSome_iff]
      obtain ⟨f, hf, he⟩ := (lookupFlag_isSome_iff _ m).mp (h1 m hm)
      exact ⟨f, by simp [boolP, hf], he⟩
    · intro g hg m hm
      rw [lookupFlag_isSome_iff]
      obtain ⟨f, hf, he⟩ := (lookupFlag_isSome_iff _ m).mp (h2 g hg m hm)
      exact ⟨f, by simp [boolP, hf], he⟩
    · intro m hm
      rcases h3 m hm with hfl | hps
      · left
        rw [lookupFlag_isSome_iff]
        obtain ⟨f, hf, he⟩ := (lookupFlag_isSome_iff _ m).mp hfl
        exact ⟨f, by simp [boolP, hf], he⟩
      · right
        exact hps
  | required p q n _ hop ih =>
    unfold requiredOp at hop
    split at hop
    · simp at hop
    split at hop
    · simp at hop
    split at hop
    · simp at hop
    rename_i hname hdef hparsed
    obtain rfl := Option.some.inj hop
    obtain ⟨h1, h2, h3⟩ := ih
    refine ⟨?_, h2, h3⟩
    intro m hm
    rcases List.mem_append.mp hm with hm | hm
    · exact h1 m hm
    · obtain rfl : m = n := by simpa using hm
      exact isSome_of_not_isNone hdef
  | mutex p q ns _ hop ih =>
    unfold mutuallyExclusiveOp at hop
    split at hop
    · simp at hop
    split at hop
    · simp at hop
    split at hop
    · simp at hop
    split at hop
    · simp at hop
    rename_i hlen hdup hdef hparsed
    have hres : ∀ x ∈ ns, (lookupFlag p x).isSome = true := by
      intro x hx
      refine isSome_of_not_isNone (fun hnone => ?_)
      have hany : (ns.any fun n => (lookupFlag p n).isNone) = true :=
        List.any_eq_true.mpr ⟨x, hx, hnone⟩
      simp [hany] at hdef
    obtain rfl := Option.some.inj hop
    obtain ⟨h1, h2, h3⟩ := ih
    refine ⟨h1, ?_, h3⟩
    intro g hg m hm
    rcases List.mem_append.mp hg with hg | hg
    · exact h2 g hg m hm
    · obtain rfl : g = ns := by simpa using hg
      exact hres m hm
  | allowOptions p q t n os _ hop ih =>
    unfold stringAllowOptionsOp at hop
    split at hop
    · simp at hop
    split at hop
    · simp at hop
    split at hop
    · simp at hop
    obtain rfl := Option.some.inj hop
    exact ih
  | allowRegexp p q t n re c _ hop ih =>
    unfold stringAllowRegexpOp at hop
    split at hop
    · simp at hop
    split at hop
    · simp at hop
    cases c with
    | none => simp at hop
    | some m =>
      simp only at hop
      split at hop
      · simp at hop
      obtain rfl := Option.some.inj hop
      exact ih
  | denyEmptyMark p q t n _ hop ih =>
    unfold stringDenyEmptyOp at hop
    split at hop
    · simp at hop
    split at hop
    · simp at hop
    split at hop
    · simp at hop
    rename_i hname hok hparsed
    obtain rfl := Option.some.inj hop
    obtain ⟨h1, h2, h3⟩ := ih
    refine ⟨h1, h2, ?_⟩
    intro m hm
    rcases List.mem_append.mp hm with hm | hm
    · exact h3 m hm
    · obtain rfl : m = n := by simpa using hm
      exact stringConstraintNameOk_resolvable p m (by simpa using hok)
  | posVar p q t n u _ hop ih =>
    unfold stringPosVarOp at hop
    split at hop
    · simp at hop
    split at hop
    · simp at hop
    split at hop
    · simp at hop
    split at hop
    · simp at hop
    split at hop
    · simp at hop
    split at hop
    · simp at hop
    obtain rfl := Option.some.inj hop
    obtain ⟨h1, h2, h3⟩ := ih
    refine ⟨h1, h2, ?_⟩
    intro m hm
    rcases h3 m hm with hfl | hps
    · exact Or.inl hfl
    · right
      rw [findPos_isSome_iff]
      obtain ⟨q, hq, he⟩ := (findPos_isSome_iff _ m).mp hps
      exact ⟨q, by simp [hq], he⟩
  | posNVar p q t n u mn mx _ hop ih =>
    unfold stringPosNVarOp at hop
    split at hop
    · simp at hop
    split at hop
    · simp at hop
    split at hop
    · simp at hop
    split at hop
    · simp at hop
    split at hop
    · simp at hop
    split at hop
    · simp at hop
    split at hop
    · simp at hop
    split at hop
    · simp at hop
    obtain rfl := Option.some.inj hop
    exact ih
  | cmdInit p q ic nc oc _ hop ih =>
    unfold commandInitOp at hop
    split at hop
    · simp at hop
    obtain rfl := Option.some.inj hop
    exact ih
  | cmd p q n d impl _ hop ih =>
    unfold commandOp at hop
    split at hop
    · simp at hop
    split at hop
    · simp at hop
    split at hop
    · simp at hop
    split at hop
    · simp at hop
    split at hop
    · simp at hop
    obtain rfl := Option.some.inj hop
    exact ih
  | tokenized p' q' _ hstep ih =>
    obtain ⟨h1, h2, h3⟩ := ih
    have hname : ∀ m, (lookupFlag q' m).isSome = true ↔ (lookupFlag p' m).isSome = true := by
      intro m
      rw [lookupFlag_isSome_iff, lookupFlag_isSome_iff]
      constructor
      · rintro ⟨f, hf, he⟩
        have hmem : m ∈ p'.flags.map Flag.name := by
          rw [← hstep.flags_names]
          exact he ▸ List.mem_map_of_mem Flag.name hf
        obtain ⟨g, hg, hge⟩ := List.mem_map.mp hmem
        exact ⟨g, hg, hge⟩
      · rintro ⟨f, hf, he⟩
        have hmem : m ∈ q'.flags.map Flag.name := by
          rw [hstep.flags_names]
          exact he ▸ List.mem_map_of_mem Flag.name hf
        obtain ⟨g, hg, hge⟩ := List.mem_map.mp hmem
        exact ⟨g, hg, hge⟩
    refine ⟨?_, ?_, ?_⟩
    · intro m hm
      exact (hname m).mpr (h1 m (by rwa [← hstep.required_eq]))
    · intro g hg m hm
      exact (hname m).mpr (h2 g (by rwa [← hstep.mutuallyExclusives_eq]) m hm)
    · intro m hm
      rcases h3 m (by rwa [← hstep.denyEmpty_eq]) with hfl | hps
      · exact Or.inl ((hname m).mpr hfl)
      · right
        rw [hstep.pos_eq]
        exact hps

/-- Resolvable groups make the per-group scan return only ordinary errors
(the nil-lookup panic branch is never taken). -/
theorem mutexGroupLoop_no_panic (p : PState) (g : List String)
    (h : ∀ n ∈ g, (lookupFlag p n).isSome = true) :
    ∀ (c : String) (f : Failure), mutexGroupLoop p g c = some f →
      ∃ msg, f = Failure.userErr msg := by
  induction g with
  | nil =>
    intro c f hf
    simp [mutexGroupLoop] at hf
  | cons n rest ih =>
    intro c f hf
    obtain ⟨fl, hfl⟩ := Option.isSome_iff_exists.mp (h n (by simp))
    simp only [mutexGroupLoop, hfl] at hf
    by_cases hch : fl.changed = true
    · rw [if_pos hch] at hf
      split at hf
      · exact ⟨_, (Option.some.inj hf).symm⟩
      · exact ih (fun m hm => h m (by simp [hm])) n f hf
    · rw [if_neg hch] at hf
      exact ih (fun m hm => h m (by simp [hm])) c f hf

/-- With every non-empty-marked name resolvable, the collection loop never
returns a failure: the internal error branch is unreachable. -/
theorem parseDenyEmptyLoop_ok (p : PState) (names : List String)
    (h : ∀ n ∈ names, (lookupFlag p n).isSome = true ∨ (findPos p.pos n).isSome = true) :
    ∀ acc, (parseDenyEmptyLoop p names acc).2 = none := by
  induction names with
  | nil => intro acc; rfl
  | cons n rest ih =>
    intro acc
    have hrest : ∀ m ∈ rest, (lookupFlag p m).isSome = true ∨ (findPos p.pos m).isSome = true :=
      fun m hm => h m (by simp [hm])
    rcases h n (by simp) with hfl | hps
    · obtain ⟨f, hf⟩ := Option.isSome_iff_exists.mp hfl
      simp only [parseDenyEmptyLoop, hf]
      split
      · exact ih hrest _
      · exact ih hrest _
    · cases hl : lookupFlag p n with
      | some f =>
        simp only [parseDenyEmptyLoop, hl]
        split
        · exact ih hrest _
        · exact ih hrest _
      | none =>
        obtain ⟨q, hq⟩ := Option.isSome_iff_exists.mp hps
        simp only [parseDenyEmptyLoop, hl, hq]
        split
        · exact ih hrest _
        · exact ih hrest _

/-- A string with a four-character-or-longer prefix cannot be the
three-character internal error text. -/
theorem prefix_append_ne_wtf (pre s : String) (hp : 4 ≤ pre.length) :
    pre ++ s ≠ "wtf" := by
  intro he
  have hlen := congrArg String.length he
  rw [String.length_append] at hlen
  have hw : ("wtf" : String).length = 3 := by decide
  omega

/-- **C10.** For every parser built through the public registration API, the
flag lookups in the required-flag and mutual-exclusivity validators never
dereference nil (every failure either produces is an ordinary error, never
the modelled nil-dereference panic), and `parseDenyEmpty` can never return
the internal `"wtf"` error. -/
theorem C10_validators_no_panic_no_wtf (p : PState) (h : Reachable p) :
    (∀ f, (parseRequired p).2 = some f → ∃ msg, f = Failure.userErr msg) ∧
    (∀ f, (parseMutuallyExclusive p).2 = some f → ∃ msg, f = Failure.userErr msg) ∧
    ((parseDenyEmpty p).2 ≠ some (Failure.userErr "wtf")) := by
  obtain ⟨h1, h2, h3⟩ := reachable_namesResolvable p h
  refine ⟨?_, ?_, ?_⟩
  · intro f hf
    unfold parseRequired at hf
    rw [parseRequiredLoop_char p p.required [] h1] at hf
    simp only [List.nil_append] at hf
    rcases hfil : p.required.filter (fun n => !flagChanged p n) with _ | ⟨n, _ | ⟨m, tl⟩⟩
    · rw [hfil] at hf
      simp at hf
    · rw [hfil] at hf
      exact ⟨_, (Option.some.inj hf).symm⟩
    · rw [hfil] at hf
      exact ⟨_, (Option.some.inj hf).symm⟩
  · intro f hf
    unfold parseMutuallyExclusive at hf
    simp only at hf
    have : ∀ gs, (∀ g ∈ gs, ∀ n ∈ g, (lookupFlag p n).isSome = true) →
        parseMutuallyExclusiveLoop p gs = some f → ∃ msg, f = Failure.userErr msg := by
      intro gs
      induction gs with
      | nil =>
        intro _ hc
        simp [parseMutuallyExclusiveLoop] at hc
      | cons g rest ih =>
        intro hres hc
        simp only [parseMutuallyExclusiveLoop] at hc
        split at hc
        · rename_i f' hf'
          obtain rfl := Option.some.inj hc
          exact mutexGroupLoop_no_panic p g (hres g (by simp)) "" f' hf'
        · exact ih (fun g' hg' => hres g' (by simp [hg'])) hc
    exact this p.mutuallyExclusives h2 hf
  · intro hwtf
    unfold parseDenyEmpty at hwtf
    rcases hl : parseDenyEmptyLoop p p.denyEmpty [] with ⟨acc, e⟩
    rw [hl] at hwtf
    have he : e = none := by
      have hok := parseDenyEmptyLoop_ok p p.denyEmpty h3 []
      rw [hl] at hok
      exact hok
    subst he
    rcases acc with _ | ⟨n, _ | ⟨m, tl⟩⟩
    · simp at hwtf
    · simp only [Option.some.injEq, Failure.userErr.injEq] at hwtf
      exact prefix_append_ne_wtf "flag/argument is empty: " n (by decide) hwtf
    · simp only [Option.some.injEq, Failure.userErr.injEq] at hwtf
      exact prefix_append_ne_wtf "flags/arguments are empty: " _ (by decide) hwtf

/-- Witness for C10: a parser built by `NewArgParser`, a string flag and a
`Required` mark is reachable, so its validators never panic. -/
theorem C10_witness :
    (∀ f, (parseRequired { stringVarP (allocStrCell (newArgParser "testprog")) 1
        "a-test" "a" "default-a" "usage-a" with required := ["a-test"] }).2 = some f →
      ∃ msg, f = Failure.userErr msg) ∧
    (∀ f, (parseMutuallyExclusive { stringVarP (allocStrCell (newArgParser "testprog")) 1
        "a-test" "a" "default-a" "usage-a" with required := ["a-test"] }).2 = some f →
      ∃ msg, f = Failure.userErr msg) ∧
    ((parseDenyEmpty { stringVarP (allocStrCell (newArgParser "testprog")) 1
        "a-test" "a" "default-a" "usage-a" with required := ["a-test"] }).2 ≠
      some (Failure.userErr "wtf")) :=
  C10_validators_no_panic_no_wtf _
    (Reachable.required _ _ "a-test"
      (Reachable.stringVar _ 1 "a-test" "a" "default-a" "usage-a"
        (Reachable.allocStr _ (Reachable.init "testprog")))
      (by rfl))


end Argparse
